import Mathlib

/-!
Verification development for a process-metrics exporter written in Go.

The repository holds two exporter variants:
* the cached exporter (src/unnamed/part_000): a `ProcessCollector` with a
  background-refreshed process cache (`refreshProcessCache`), a substring
  name matcher (`isTarget`), and a `Collect` method driven by the cache;
* the node-process exporter (src/node-process/main.go): an uncached
  collector with a normalized-equality name filter (`normalizeName`) and a
  derived memory-percentage metric (`getProcMemoryPercent`).

The Go code is shallowly embedded below.  OS queries that can fail
(gopsutil calls) are modelled as `Option`-valued inputs: `none` stands for
a call that returned a non-nil error, `some v` for a successful call
returning `v`.  Go `float64` metric values are modelled as rationals, Go
strings as Lean strings over their character lists, and the Go map used
for the cache as a list of entries (the claims are about its key set).
-/

/-! ## Cached exporter (src/unnamed/part_000): data model -/

/-- One cache entry: the PID the handle is bound to and the name resolved
at cache-build time (Go struct `CachedProcess`; the `Proc` handle is
represented by the PID it queries). -/
structure CachedProcess where
  pid : ℤ
  name : String
deriving DecidableEq

/-- Result of enumerating one OS process during a refresh cycle: its PID
and the result of `p.Name()` (`none` when name resolution failed). -/
structure OSProc where
  pid : ℤ
  name : Option String
deriving DecidableEq

/-- The live statistics of one process as observed by the cached
exporter's `Collect`: each field is the result of one gopsutil call
(`p.Times()`, `p.MemoryInfo()`, `p.NumThreads()`, `p.NumFDs()`,
`p.CreateTime()`), `none` when the call errored. -/
structure ProcStats where
  times : Option (ℚ × ℚ)
  memoryInfo : Option (ℚ × ℚ)
  numThreads : Option ℤ
  numFDs : Option ℤ
  createTime : Option ℤ
deriving DecidableEq

/-- The metric descriptors of the cached exporter (`NewProcessCollector`). -/
inductive MetricId where
  | up
  | cpuUser
  | cpuSystem
  | memoryRSS
  | memoryVMS
  | numThreads
  | openFDs
  | startTime
deriving DecidableEq

/-- One emitted metric sample: descriptor, value, and the label pair
(process name, pid) passed to `MustNewConstMetric`. -/
structure Sample where
  metric : MetricId
  value : ℚ
  pname : String
  pid : ℤ
deriving DecidableEq

/-- Collector state shared between the refresher and `Collect`
(Go struct `ProcessCollector`: the target name list and the cache). -/
structure ProcessCollector where
  targetNames : List String
  cachedProcs : List CachedProcess
deriving DecidableEq

/-! ## Cached exporter: name matcher and cache refresh -/

/-- Substring test on character lists: `sub` occurs contiguously in `s`. -/
def listIsSub (sub s : List Char) : Bool :=
  (List.range (s.length + 1)).any (fun i => sub.isPrefixOf (s.drop i))

/-- Go `strings.Contains(s, sub)`. -/
def goContains (s sub : String) : Bool :=
  listIsSub sub.data s.data

/-- Go method `isTarget`: the process name contains some target fragment
as a substring. -/
def isTarget (targetNames : List String) (procName : String) : Bool :=
  targetNames.any (fun target => goContains procName target)

/-- The filtering loop of `refreshProcessCache`: for each enumerated
process, skip it when name resolution failed, keep it when `isTarget`
accepts the resolved name. -/
def buildCache (targetNames : List String) (procs : List OSProc) :
    List CachedProcess :=
  procs.filterMap (fun p =>
    match p.name with
    | none => none
    | some n => if isTarget targetNames n then some ⟨p.pid, n⟩ else none)

/-- Go method `refreshProcessCache`: `enumResult` is the outcome of
`process.Processes()` (`none` = error).  On error the function returns
early and the old cache stays; otherwise the cache is rebuilt. -/
def refreshProcessCache (targetNames : List String)
    (enumResult : Option (List OSProc)) (oldCache : List CachedProcess) :
    List CachedProcess :=
  match enumResult with
  | none => oldCache
  | some procs => buildCache targetNames procs

/-! ## Cached exporter: Collect -/

/-- The body of the `Collect` loop for one cached entry.  A failed
`p.Times()` call skips the whole entry (`continue` in the Go source);
otherwise the CPU samples are emitted, each remaining statistic is
emitted only when its own query succeeded, and the `up` sample closes
the entry. -/
def collectOne (name : String) (pid : ℤ) (s : ProcStats) : List Sample :=
  match s.times with
  | none => []
  | some t =>
    [⟨.cpuUser, t.1, name, pid⟩, ⟨.cpuSystem, t.2, name, pid⟩]
    ++ (match s.memoryInfo with
        | some m => [⟨.memoryRSS, m.1, name, pid⟩, ⟨.memoryVMS, m.2, name, pid⟩]
        | none => [])
    ++ (match s.numThreads with
        | some k => [⟨.numThreads, (k : ℚ), name, pid⟩]
        | none => [])
    ++ (match s.numFDs with
        | some k => [⟨.openFDs, (k : ℚ), name, pid⟩]
        | none => [])
    ++ (match s.createTime with
        | some ct => [⟨.startTime, (ct : ℚ) / 1000, name, pid⟩]
        | none => [])
    ++ [⟨.up, 1, name, pid⟩]

/-- The samples a scrape emits from a given cache snapshot: the `Collect`
loop over the copied target list.  `live` is the Process Source at scrape
time: the statistics each PID query returns. -/
def collectSamples (cache : List CachedProcess) (live : ℤ → ProcStats) :
    List Sample :=
  (cache.map (fun e => collectOne e.name e.pid (live e.pid))).flatten

/-- Go method `Collect`: reads the cache under the read lock, emits
samples, and leaves the collector state as it was (the method never
writes `cachedProcs`). -/
def collect (c : ProcessCollector) (live : ℤ → ProcStats) :
    List Sample × ProcessCollector :=
  (collectSamples c.cachedProcs live, c)

/-- Whether a sample for descriptor `m` occurs in the emitted list. -/
def emitted (samples : List Sample) (m : MetricId) : Bool :=
  samples.any (fun s => decide (s.metric = m))

/-- The statistics of a process that has fully exited: every query fails. -/
def deadStats : ProcStats :=
  ⟨none, none, none, none, none⟩

/-! ## Cached exporter: startup and refresh/scrape interleaving -/

/-- Outcome of `main` as far as the claims are concerned: either the
process exits fatally (non-zero status, listen address never bound) or
it reaches `ListenAndServe` with the given target list configured. -/
inductive StartupOutcome where
  | fatalBeforeBind
  | serving (targets : List String)
deriving DecidableEq

/-- Go `strings.Split(s, ",")` on character lists: structural recursion
over the characters, accumulating the current field. -/
def splitCommaAux (cur : List Char) (acc : List String) :
    List Char → List String
  | [] => acc ++ [String.mk cur]
  | c :: rest =>
    if c = ',' then splitCommaAux [] (acc ++ [String.mk cur]) rest
    else splitCommaAux (cur ++ [c]) acc rest

/-- Go `strings.Split(s, ",")`. -/
def splitComma (s : String) : List String :=
  splitCommaAux [] [] s.data

/-- The cached exporter's `main`: an empty `-names` flag is
`log.Fatal` (exit before the server binds); otherwise the flag is split
on commas and the server is started with that target list. -/
def cachedMain (procNames : String) : StartupOutcome :=
  if procNames = "" then .fatalBeforeBind
  else .serving (splitComma procNames)

/-- Shared-memory state for one refresh cycle racing one scrape:
`shared` is the published cache (`c.cachedProcs`), `wLocal` the
refresher's locally built new map, `rSnap` the scrape's copy of the
cache taken under the read lock. -/
structure SysState where
  shared : List CachedProcess
  wLocal : Option (List CachedProcess)
  rSnap : Option (List CachedProcess)
deriving DecidableEq

/-- The atomic steps of the race: the refresher builds the new map off
to the side, then swaps it in under the write lock; the reader copies
the current cache under the read lock. -/
inductive RefStep where
  | wBuild
  | wSwap
  | rSnap
deriving DecidableEq

/-- Effect of one atomic step on the shared-memory state. -/
def stepCycle (targetNames : List String) (procs : List OSProc)
    (m : SysState) : RefStep → SysState
  | .wBuild => { m with wLocal := some (buildCache targetNames procs) }
  | .wSwap =>
    match m.wLocal with
    | some nc => { m with shared := nc }
    | none => m
  | .rSnap => { m with rSnap := some m.shared }

/-- Run a schedule of atomic steps from an initial state. -/
def runSchedule (targetNames : List String) (procs : List OSProc)
    (sched : List RefStep) (init : SysState) : SysState :=
  sched.foldl (stepCycle targetNames procs) init

/-- All interleavings of the refresher's program `[wBuild, wSwap]` with
the reader's single snapshot step. -/
def interleavings : List (List RefStep) :=
  [[.rSnap, .wBuild, .wSwap],
   [.wBuild, .rSnap, .wSwap],
   [.wBuild, .wSwap, .rSnap]]

/-- Initial state: the pre-refresh cache is published, no local copies. -/
def initState (oldCache : List CachedProcess) : SysState :=
  ⟨oldCache, none, none⟩

/-- The sample list the scrape produces from the snapshot it copied. -/
def scrapeOf (m : SysState) (live : ℤ → ProcStats) : Option (List Sample) :=
  m.rSnap.map (fun snap => collectSamples snap live)

/-! ## Node-process exporter (src/node-process/main.go) -/

/-- Lower-case a string character by character (Go `strings.ToLower`,
restricted to the ASCII range the claims exercise). -/
def lowerStr (s : String) : String :=
  String.mk (s.data.map Char.toLower)

/-- Whether the character list ends in `.exe`. -/
def endsWithExe (s : String) : Bool :=
  List.isSuffixOf ".exe".data s.data

/-- Go function `normalizeName`: lower-case, then strip a trailing
`.exe` suffix when present. -/
def normalizeName (n : String) : String :=
  let s := lowerStr n
  if endsWithExe s then String.mk (s.data.take (s.data.length - 4)) else s

/-- Whitespace recognised by the trimming step (Go `strings.TrimSpace`,
restricted to the ASCII whitespace the flag syntax can carry). -/
def isSpaceChar (c : Char) : Bool :=
  c == ' ' || c == '\t' || c == '\n' || c == '\r'

/-- Trim whitespace from both ends of a character list. -/
def trimChars (l : List Char) : List Char :=
  ((l.dropWhile isSpaceChar).reverse.dropWhile isSpaceChar).reverse

/-- Go `strings.TrimSpace`. -/
def trimStr (s : String) : String :=
  String.mk (trimChars s.data)

/-- The include-set construction in the node-process `main`: an empty
flag yields an empty set; otherwise split on commas, trim each part,
drop empties, and keep the normalized names. -/
def buildInclude (namesFlag : String) : List String :=
  if namesFlag = "" then []
  else (splitComma namesFlag).foldl (fun acc p =>
    let t := trimStr p
    if t = "" then acc else acc ++ [normalizeName t]) []

/-- The name filter inside the node-process `Collect`: with a non-empty
include set, pass only names whose normalization is a member; with an
empty include set, pass everything. -/
def passesFilter (includeNames : List String) (name : String) : Bool :=
  if includeNames.length > 0 then includeNames.contains (normalizeName name)
  else true

/-- The node-process `main`: the `-names` flag is optional; the server
always starts, configured with the built include set. -/
def nodeMain (namesFlag : String) : StartupOutcome :=
  .serving (buildInclude namesFlag)

/-- Go function `getProcMemoryPercent`: `memoryRSS` is the result of
`proc.MemoryInfo()` (the RSS field), `nodeTotal` the result of
`mem.VirtualMemory()` (the Total field); either failure propagates,
otherwise the percentage is RSS over total times 100. -/
def getProcMemoryPercent (memoryRSS : Option ℚ) (nodeTotal : Option ℚ) :
    Option ℚ :=
  match memoryRSS with
  | none => none
  | some r =>
    match nodeTotal with
    | none => none
    | some t => some (r / t * 100)

/-- The metric descriptors of the node-process exporter. -/
inductive NodeMetricId where
  | cpu
  | memory
  | openFiles
  | readBytes
  | writeBytes
deriving DecidableEq

/-- One node-process sample: descriptor, value, and the label values
(name, pid, cmd, user). -/
structure NodeSample where
  metric : NodeMetricId
  value : ℚ
  pname : String
  pid : ℤ
  cmd : String
  user : String
deriving DecidableEq

/-- The live statistics of one process as observed by the node-process
`Collect`: results of `proc.Cmdline()`, `proc.Username()`,
`proc.CPUPercent()`, `proc.MemoryInfo()` (RSS), `proc.OpenFiles()`
(its length), and `proc.IOCounters()` (read and write bytes). -/
structure NodeStats where
  cmdline : Option String
  username : Option String
  cpuPercent : Option ℚ
  memoryRSS : Option ℚ
  openFilesCount : Option ℕ
  ioCounters : Option (ℚ × ℚ)
deriving DecidableEq

/-- The body of the node-process `Collect` loop for one process that
passed the name filter.  A failed cmdline defaults to the empty string
and a failed username to `unknown`; the CPU, memory, and open-files
gauges are emitted only when the query succeeded and the value is
strictly positive; the IO counters are emitted whenever the query
succeeded, zero included.  `nodeTotal` is the system-wide total memory
used by the percentage derivation. -/
def nodeCollectOne (name : String) (pid : ℤ) (s : NodeStats)
    (nodeTotal : Option ℚ) : List NodeSample :=
  let cmd := s.cmdline.getD ""
  let user := s.username.getD "unknown"
  (match s.cpuPercent with
   | some v => if 0 < v then [⟨.cpu, v, name, pid, cmd, user⟩] else []
   | none => [])
  ++ (match getProcMemoryPercent s.memoryRSS nodeTotal with
      | some v => if 0 < v then [⟨.memory, v, name, pid, cmd, user⟩] else []
      | none => [])
  ++ (match s.openFilesCount with
      | some k => if 0 < k then [⟨.openFiles, (k : ℚ), name, pid, cmd, user⟩] else []
      | none => [])
  ++ (match s.ioCounters with
      | some io =>
        [⟨.readBytes, io.1, name, pid, cmd, user⟩,
         ⟨.writeBytes, io.2, name, pid, cmd, user⟩]
      | none => [])

/-- Whether a sample for descriptor `m` occurs in a node sample list. -/
def emittedN (samples : List NodeSample) (m : NodeMetricId) : Bool :=
  samples.any (fun s => decide (s.metric = m))

/-! ## Helper lemmas about the emitted sample lists -/

/-- Every sample `collectOne` emits carries the PID of the entry that
produced it. -/
theorem collectOne_pid_all (name : String) (pid : ℤ) (s : ProcStats) :
    (collectOne name pid s).all (fun smp => decide (smp.pid = pid)) = true := by
  rcases s with ⟨t, mi, nt, nf, ct⟩
  cases t <;> cases mi <;> cases nt <;> cases nf <;> cases ct <;> simp [collectOne]

/-- Membership form of `collectOne_pid_all`. -/
theorem pid_of_mem_collectOne {smp : Sample} {name : String} {pid : ℤ}
    {s : ProcStats} (h : smp ∈ collectOne name pid s) : smp.pid = pid := by
  have hall := collectOne_pid_all name pid s
  rw [List.all_eq_true] at hall
  simpa using hall smp h

/-- Every sample `collectOne` emits for the `up` descriptor has value 1. -/
theorem collectOne_up_all (name : String) (pid : ℤ) (s : ProcStats) :
    (collectOne name pid s).all
      (fun smp => !(decide (smp.metric = MetricId.up)) || decide (smp.value = 1)) = true := by
  rcases s with ⟨t, mi, nt, nf, ct⟩
  cases t <;> cases mi <;> cases nt <;> cases nf <;> cases ct <;> simp [collectOne]

/-- Membership form of `collectOne_up_all`. -/
theorem up_value_of_mem_collectOne {smp : Sample} {name : String} {pid : ℤ}
    {s : ProcStats} (h : smp ∈ collectOne name pid s)
    (hm : smp.metric = MetricId.up) : smp.value = 1 := by
  have hall := collectOne_up_all name pid s
  rw [List.all_eq_true] at hall
  have h2 := hall smp h
  simp [hm] at h2
  exact h2

/-- Membership in the samples of a scrape comes from one cache entry. -/
theorem mem_collectSamples {smp : Sample} {cache : List CachedProcess}
    {live : ℤ → ProcStats} (h : smp ∈ collectSamples cache live) :
    ∃ e ∈ cache, smp ∈ collectOne e.name e.pid (live e.pid) := by
  simp only [collectSamples, List.mem_flatten, List.mem_map] at h
  obtain ⟨l, ⟨e, he, rfl⟩, hs⟩ := h
  exact ⟨e, he, hs⟩

/-! ## Claim theorems -/

/-- C3: when the OS process enumeration call fails, the refresh function
returns with the cache completely unchanged — the previous snapshot
remains current, and the failure is handled inside the function rather
than escalated. -/
theorem refresh_enumeration_failure_keeps_cache (targetNames : List String)
    (oldCache : List CachedProcess) :
    refreshProcessCache targetNames none oldCache = oldCache := rfl

/-- C7: for total memory t greater than 0 the derived memory-usage
percentage is resident over total times 100 — deterministic in its
inputs because it is a function of them — and at resident = 200 MiB,
total = 2000 MiB the result is exactly 10 percent. -/
theorem memory_percent_formula_and_example :
    (∀ r t : ℚ, 0 < t →
      getProcMemoryPercent (some r) (some t) = some (r / t * 100)) ∧
    getProcMemoryPercent (some (200 * 2 ^ 20)) (some (2000 * 2 ^ 20)) = some 10 := by
  constructor
  · intro r t _
    rfl
  · simp only [getProcMemoryPercent]
    norm_num

/-- Witness for C7 at resident 1, total 2. -/
theorem memory_percent_witness :
    getProcMemoryPercent (some 1) (some 2) = some (1 / 2 * 100) :=
  memory_percent_formula_and_example.1 1 2 (by norm_num)

/-- C1 counterexample: a cached entry whose CPU-times query fails but
whose memory query succeeds.  The claim predicts the memory samples are
still emitted; the code emits nothing at all for the entry, because the
failed `Times` call runs `continue` and skips every later statistic. -/
theorem cpu_failure_skips_entry_counterexample :
    (ProcStats.mk none (some (5, 6)) (some 2) (some 3) (some 0)).memoryInfo.isSome = true ∧
    collectOne "nginx" 1 (ProcStats.mk none (some (5, 6)) (some 2) (some 3) (some 0)) = [] :=
  ⟨rfl, rfl⟩

/-- C1 amended: in the cached exporter's Collect the CPU-times query is a
gatekeeper — if it fails, the entire entry is skipped and no sample at
all is emitted for it; if it succeeds, the remaining statistics (memory,
thread count, open FDs, start time) are each independently fallible, a
failed one emits no sample while the others and the up sample are still
emitted, and collection of the other entries is unaffected. -/
theorem cpu_gatekeeper_then_independent (name : String) (pid : ℤ)
    (s : ProcStats) :
    (s.times = none → collectOne name pid s = []) ∧
    (∀ u v : ℚ, s.times = some (u, v) →
      emitted (collectOne name pid s) MetricId.cpuUser = true ∧
      emitted (collectOne name pid s) MetricId.cpuSystem = true ∧
      emitted (collectOne name pid s) MetricId.memoryRSS = s.memoryInfo.isSome ∧
      emitted (collectOne name pid s) MetricId.memoryVMS = s.memoryInfo.isSome ∧
      emitted (collectOne name pid s) MetricId.numThreads = s.numThreads.isSome ∧
      emitted (collectOne name pid s) MetricId.openFDs = s.numFDs.isSome ∧
      emitted (collectOne name pid s) MetricId.startTime = s.createTime.isSome ∧
      emitted (collectOne name pid s) MetricId.up = true) := by
  rcases s with ⟨t, mi, nt, nf, ct⟩
  constructor
  · intro h
    simp only at h
    subst h
    rfl
  · intro u v h
    simp only at h
    subst h
    cases mi <;> cases nt <;> cases nf <;> cases ct <;>
      simp [collectOne, emitted]

/-- Witness for the amended C1: entry with CPU times available, memory
query failed, thread query available. -/
theorem cpu_gatekeeper_witness :
    emitted (collectOne "nginx" 7 (ProcStats.mk (some (1, 2)) none (some 4) none (some 1000)))
      MetricId.numThreads = (some (4 : ℤ)).isSome ∧
    emitted (collectOne "nginx" 7 (ProcStats.mk (some (1, 2)) none (some 4) none (some 1000)))
      MetricId.up = true :=
  ⟨((cpu_gatekeeper_then_independent "nginx" 7
      (ProcStats.mk (some (1, 2)) none (some 4) none (some 1000))).2 1 2 rfl).2.2.2.2.1,
   ((cpu_gatekeeper_then_independent "nginx" 7
      (ProcStats.mk (some (1, 2)) none (some 4) none (some 1000))).2 1 2 rfl).2.2.2.2.2.2.2⟩

/-- C2 counterexample: the node-process variant started with an empty
target-name flag.  The claim predicts a fatal exit before the listen
address is bound; the code builds an empty include set and starts the
server (it reaches ListenAndServe). -/
theorem node_empty_names_counterexample :
    nodeMain "" = StartupOutcome.serving [] ∧
    nodeMain "" ≠ StartupOutcome.fatalBeforeBind := by
  constructor
  · rfl
  · decide

/-- C2 amended: only the cached exporter treats an empty target-name
flag as a startup-time fatal error (exit before the listen address is
bound); the node-process exporter never exits fatally over the flag —
with an empty flag it serves with an empty include set, whose filter
passes every process name. -/
theorem startup_empty_names_by_variant :
    cachedMain "" = StartupOutcome.fatalBeforeBind ∧
    (∀ s : String, nodeMain s ≠ StartupOutcome.fatalBeforeBind) ∧
    (∀ name : String, passesFilter (buildInclude "") name = true) := by
  refine ⟨rfl, ?_, ?_⟩
  · intro s h
    simp [nodeMain] at h
  · intro name
    rfl

/-- Witness for the amended C2 at a concrete flag and name. -/
theorem startup_empty_names_witness :
    passesFilter (buildInclude "") "mysql" = true :=
  startup_empty_names_by_variant.2.2 "mysql"

/-- C4: after one refresh cycle the cache contains exactly the PIDs of
the enumerated processes whose resolved name matches `isTarget` — no
false positives, no false negatives — and processes whose name
resolution failed contribute nothing (dropping them from the input list
leaves the cache unchanged). -/
theorem cache_exactness (targetNames : List String) (procs : List OSProc) :
    (∀ pid : ℤ,
      (∃ e ∈ buildCache targetNames procs, e.pid = pid) ↔
      (∃ p ∈ procs, p.pid = pid ∧
        ∃ n, p.name = some n ∧ isTarget targetNames n = true)) ∧
    buildCache targetNames (procs.filter (fun p => p.name.isSome)) =
      buildCache targetNames procs := by
  constructor
  · intro pid
    constructor
    · rintro ⟨e, he, rfl⟩
      rw [buildCache, List.mem_filterMap] at he
      obtain ⟨p, hp, hf⟩ := he
      refine ⟨p, hp, ?_⟩
      rcases hpn : p.name with _ | n
      · simp [hpn] at hf
      · by_cases ht : isTarget targetNames n = true
        · simp only [hpn, ht, if_true] at hf
          obtain rfl := Option.some_injective _ hf
          exact ⟨rfl, n, rfl, ht⟩
        · simp [hpn, ht] at hf
    · rintro ⟨p, hp, hpid, n, hn, ht⟩
      refine ⟨⟨p.pid, n⟩, ?_, hpid⟩
      rw [buildCache, List.mem_filterMap]
      refine ⟨p, hp, ?_⟩
      simp [hn, ht]
  · induction procs with
    | nil => rfl
    | cons p ps ih =>
      rcases hpn : p.name with _ | n
      · simp only [buildCache, List.filter_cons, hpn, Option.isSome] at ih ⊢
        rw [List.filterMap_cons]
        simp only [hpn]
        exact ih
      · simp only [buildCache] at ih ⊢
        simp [List.filter_cons, hpn, List.filterMap_cons, ih]

/-- C5: a cached entry whose process has fully exited before the scrape
(every live query fails) contributes zero samples for its PID, the
scrape as a whole still returns normally, and Collect hands the
collector state back unchanged — the entry is removed only by a later
refresh cycle, never by collection. -/
theorem dead_entry_zero_samples (c : ProcessCollector) (live : ℤ → ProcStats)
    (pid : ℤ) (h : live pid = deadStats) :
    ((collect c live).1.filter (fun smp => decide (smp.pid = pid))) = [] ∧
    (collect c live).2 = c := by
  refine ⟨?_, rfl⟩
  rw [List.filter_eq_nil_iff]
  intro smp hmem
  obtain ⟨e, he, hsm⟩ := mem_collectSamples hmem
  by_cases hpe : e.pid = pid
  · rw [hpe, h] at hsm
    simp [collectOne, deadStats] at hsm
  · have := pid_of_mem_collectOne hsm
    simp [this, hpe]

/-- Witness for C5: one cached entry, a live view where every query
fails, scrape yields no sample for the PID and the state is unchanged. -/
theorem dead_entry_witness :
    ((collect ⟨["x"], [⟨1, "x"⟩]⟩ (fun _ => deadStats)).1.filter
      (fun smp => decide (smp.pid = 1))) = [] ∧
    (collect ⟨["x"], [⟨1, "x"⟩]⟩ (fun _ => deadStats)).2 = ⟨["x"], [⟨1, "x"⟩]⟩ :=
  dead_entry_zero_samples ⟨["x"], [⟨1, "x"⟩]⟩ (fun _ => deadStats) 1 rfl

/-- C6: for every interleaving of one refresh cycle (build the new map
off to the side, then swap it in) with one scrape (copy the cache under
the read lock), the scrape's samples are exactly the collection over the
pre-refresh cache or exactly the collection over the post-refresh cache,
never a mixture of the two snapshots. -/
theorem snapshot_atomicity (targetNames : List String) (procs : List OSProc)
    (oldCache : List CachedProcess) (live : ℤ → ProcStats)
    (sched : List RefStep) (h : sched ∈ interleavings) :
    scrapeOf (runSchedule targetNames procs sched (initState oldCache)) live =
      some (collectSamples oldCache live) ∨
    scrapeOf (runSchedule targetNames procs sched (initState oldCache)) live =
      some (collectSamples (buildCache targetNames procs) live) := by
  simp only [interleavings, List.mem_cons, List.mem_singleton,
    List.not_mem_nil, or_false] at h
  rcases h with rfl | rfl | rfl
  · left; rfl
  · left; rfl
  · right; rfl

/-- Witness for C6: the schedule where the scrape reads after the swap
observes exactly the post-refresh snapshot. -/
theorem snapshot_atomicity_witness :
    scrapeOf (runSchedule ["x"] [⟨1, some "x"⟩] [RefStep.wBuild, RefStep.wSwap, RefStep.rSnap]
        (initState [])) (fun _ => deadStats) =
      some (collectSamples [] (fun _ => deadStats)) ∨
    scrapeOf (runSchedule ["x"] [⟨1, some "x"⟩] [RefStep.wBuild, RefStep.wSwap, RefStep.rSnap]
        (initState [])) (fun _ => deadStats) =
      some (collectSamples (buildCache ["x"] [⟨1, some "x"⟩]) (fun _ => deadStats)) :=
  snapshot_atomicity ["x"] [⟨1, some "x"⟩] [] (fun _ => deadStats)
    [RefStep.wBuild, RefStep.wSwap, RefStep.rSnap] (by decide)

/-- C8: under the normalized-equality policy with a non-empty include
set, a process name passes exactly when its lower-cased,
trailing-exe-stripped form is a member of the normalized target set; in
particular target nginx matches process name Nginx.exe. -/
theorem normalized_equality_match (includeNames : List String) (name : String)
    (h : includeNames ≠ []) :
    (passesFilter includeNames name = true ↔ normalizeName name ∈ includeNames) ∧
    passesFilter (buildInclude "nginx") "Nginx.exe" = true := by
  constructor
  · rw [passesFilter, if_pos]
    · simp
    · simpa using List.length_pos.mpr h
  · decide

/-- Witness for C8 at the concrete target and process name. -/
theorem normalized_equality_witness :
    passesFilter ["nginx"] "Nginx.exe" = true :=
  (normalized_equality_match ["nginx"] "Nginx.exe" (by decide)).1.mpr (by decide)

/-- C9: the cached exporter emits the up gauge only with value 1: every
up sample of any scrape has value 1, and an entry gets an up sample
exactly when its CPU-times query succeeded — a value of 0 is never
reported. -/
theorem up_gauge_always_one :
    (∀ (c : ProcessCollector) (live : ℤ → ProcStats),
      ((collect c live).1.filter (fun smp => decide (smp.metric = MetricId.up))).all
        (fun smp => decide (smp.value = 1)) = true) ∧
    (∀ (name : String) (pid : ℤ) (s : ProcStats),
      emitted (collectOne name pid s) MetricId.up = s.times.isSome) := by
  constructor
  · intro c live
    rw [List.all_eq_true]
    intro smp hmem
    rw [List.mem_filter] at hmem
    obtain ⟨hs, hup⟩ := hmem
    obtain ⟨e, he, hone⟩ := mem_collectSamples hs
    have hv := up_value_of_mem_collectOne hone (by simpa using hup)
    simpa using hv
  · intro name pid s
    rcases s with ⟨t, mi, nt, nf, ct⟩
    cases t <;> cases mi <;> cases nt <;> cases nf <;> cases ct <;>
      simp [collectOne, emitted]

/-- The CPU gauge is emitted exactly when the query succeeded with a
strictly positive value. -/
theorem nodeCollectOne_cpu (name : String) (pid : ℤ) (s : NodeStats)
    (nodeTotal : Option ℚ) :
    emittedN (nodeCollectOne name pid s nodeTotal) NodeMetricId.cpu =
      (match s.cpuPercent with
       | some v => decide (0 < v)
       | none => false) := by
  rcases s with ⟨cl, un, cp, mr, ofc, io⟩
  rcases cp with _ | cv <;> rcases mr with _ | mv <;> rcases nodeTotal with _ | tv <;>
    rcases ofc with _ | kv <;> rcases io with _ | ⟨r2, w2⟩ <;>
    simp [nodeCollectOne, emittedN, getProcMemoryPercent] <;>
    split_ifs <;> simp_all

/-- The memory gauge is emitted exactly when the percentage derivation
succeeded with a strictly positive value. -/
theorem nodeCollectOne_memory (name : String) (pid : ℤ) (s : NodeStats)
    (nodeTotal : Option ℚ) :
    emittedN (nodeCollectOne name pid s nodeTotal) NodeMetricId.memory =
      (match getProcMemoryPercent s.memoryRSS nodeTotal with
       | some v => decide (0 < v)
       | none => false) := by
  rcases s with ⟨cl, un, cp, mr, ofc, io⟩
  rcases cp with _ | cv <;> rcases mr with _ | mv <;> rcases nodeTotal with _ | tv <;>
    rcases ofc with _ | kv <;> rcases io with _ | ⟨r2, w2⟩ <;>
    simp [nodeCollectOne, emittedN, getProcMemoryPercent] <;>
    split_ifs <;> simp_all

/-- The open-files gauge is emitted exactly when the query succeeded
with a strictly positive count. -/
theorem nodeCollectOne_openFiles (name : String) (pid : ℤ) (s : NodeStats)
    (nodeTotal : Option ℚ) :
    emittedN (nodeCollectOne name pid s nodeTotal) NodeMetricId.openFiles =
      (match s.openFilesCount with
       | some k => decide (0 < k)
       | none => false) := by
  rcases s with ⟨cl, un, cp, mr, ofc, io⟩
  rcases cp with _ | cv <;> rcases mr with _ | mv <;> rcases nodeTotal with _ | tv <;>
    rcases ofc with _ | kv <;> rcases io with _ | ⟨r2, w2⟩ <;>
    simp [nodeCollectOne, emittedN, getProcMemoryPercent] <;>
    split_ifs <;> simp_all

/-- The read-bytes counter is emitted exactly when the IO query
succeeded, zero value included. -/
theorem nodeCollectOne_readBytes (name : String) (pid : ℤ) (s : NodeStats)
    (nodeTotal : Option ℚ) :
    emittedN (nodeCollectOne name pid s nodeTotal) NodeMetricId.readBytes =
      s.ioCounters.isSome := by
  rcases s with ⟨cl, un, cp, mr, ofc, io⟩
  rcases cp with _ | cv <;> rcases mr with _ | mv <;> rcases nodeTotal with _ | tv <;>
    rcases ofc with _ | kv <;> rcases io with _ | ⟨r2, w2⟩ <;>
    simp [nodeCollectOne, emittedN, getProcMemoryPercent]

/-- The write-bytes counter is emitted exactly when the IO query
succeeded, zero value included. -/
theorem nodeCollectOne_writeBytes (name : String) (pid : ℤ) (s : NodeStats)
    (nodeTotal : Option ℚ) :
    emittedN (nodeCollectOne name pid s nodeTotal) NodeMetricId.writeBytes =
      s.ioCounters.isSome := by
  rcases s with ⟨cl, un, cp, mr, ofc, io⟩
  rcases cp with _ | cv <;> rcases mr with _ | mv <;> rcases nodeTotal with _ | tv <;>
    rcases ofc with _ | kv <;> rcases io with _ | ⟨r2, w2⟩ <;>
    simp [nodeCollectOne, emittedN, getProcMemoryPercent]

/-- On a successful IO query both counters are emitted with the queried
values, zero included. -/
theorem nodeCollectOne_io_mem (name : String) (pid : ℤ) (s : NodeStats)
    (nodeTotal : Option ℚ) (r w : ℚ) (hio : s.ioCounters = some (r, w)) :
    (⟨NodeMetricId.readBytes, r, name, pid, s.cmdline.getD "",
        s.username.getD "unknown"⟩ : NodeSample)
      ∈ nodeCollectOne name pid s nodeTotal ∧
    (⟨NodeMetricId.writeBytes, w, name, pid, s.cmdline.getD "",
        s.username.getD "unknown"⟩ : NodeSample)
      ∈ nodeCollectOne name pid s nodeTotal := by
  rcases s with ⟨cl, un, cp, mr, ofc, io⟩
  simp only at hio
  subst hio
  constructor <;> simp [nodeCollectOne]

/-- C10: zero-suppression in the node-process Collect is hardcoded per
statistic: CPU-usage, memory-usage and open-files samples are emitted
only when the successfully queried value is strictly positive, while
the read-bytes and write-bytes counters are emitted on every successful
IO query, zero values included. -/
theorem node_zero_suppression (name : String) (pid : ℤ) (s : NodeStats)
    (nodeTotal : Option ℚ) :
    (emittedN (nodeCollectOne name pid s nodeTotal) NodeMetricId.cpu =
      (match s.cpuPercent with
       | some v => decide (0 < v)
       | none => false)) ∧
    (emittedN (nodeCollectOne name pid s nodeTotal) NodeMetricId.memory =
      (match getProcMemoryPercent s.memoryRSS nodeTotal with
       | some v => decide (0 < v)
       | none => false)) ∧
    (emittedN (nodeCollectOne name pid s nodeTotal) NodeMetricId.openFiles =
      (match s.openFilesCount with
       | some k => decide (0 < k)
       | none => false)) ∧
    (emittedN (nodeCollectOne name pid s nodeTotal) NodeMetricId.readBytes =
      s.ioCounters.isSome) ∧
    (emittedN (nodeCollectOne name pid s nodeTotal) NodeMetricId.writeBytes =
      s.ioCounters.isSome) ∧
    (∀ r w : ℚ, s.ioCounters = some (r, w) →
      (⟨NodeMetricId.readBytes, r, name, pid, s.cmdline.getD "",
          s.username.getD "unknown"⟩ : NodeSample)
        ∈ nodeCollectOne name pid s nodeTotal ∧
      (⟨NodeMetricId.writeBytes, w, name, pid, s.cmdline.getD "",
          s.username.getD "unknown"⟩ : NodeSample)
        ∈ nodeCollectOne name pid s nodeTotal) :=
  ⟨nodeCollectOne_cpu name pid s nodeTotal,
   nodeCollectOne_memory name pid s nodeTotal,
   nodeCollectOne_openFiles name pid s nodeTotal,
   nodeCollectOne_readBytes name pid s nodeTotal,
   nodeCollectOne_writeBytes name pid s nodeTotal,
   fun r w hio => nodeCollectOne_io_mem name pid s nodeTotal r w hio⟩

/-- Witness for C10: a process whose only successful query is an IO
query returning zero bytes still gets its read-bytes counter emitted. -/
theorem node_zero_suppression_witness :
    (⟨NodeMetricId.readBytes, 0, "java", 9, "", "unknown"⟩ : NodeSample)
      ∈ nodeCollectOne "java" 9
        (NodeStats.mk none none none none none (some (0, 0))) none :=
  ((node_zero_suppression "java" 9
      (NodeStats.mk none none none none none (some (0, 0))) none).2.2.2.2.2
    0 0 rfl).1
